import Mathlib

/-!
Shallow embedding of the sprite attribute codec and commit pipeline of
`butano/hw/src/btn_hw_sprites.cpp` (namespace `btn::hw::sprites`).

The C++ file manipulates 16-bit hardware attribute words through the tonc
library (`ATTR0_BUILD`, `ATTR1_BUILDR`, `ATTR2_BUILD`, `BFN_SET`,
`obj_set_attr`, `obj_set_pos`, `obj_get_size`, `obj_hide`, `oam_init`) and the
headers `btn_hw_sprites.h` / `btn_memory.h` / `btn_sprite_shape_size.h`.
Those are vendored dependencies of the repository that are not present under
`src/`, so their semantics are modelled from the specification's bit-exact
binary-layout table and interface descriptions; every such definition carries
a doc comment starting with `Modelled from the spec:`.

Machine words are `Nat` values; every write masks its field, mirroring the
`uint16_t` bitfield read-modify-write of the hardware words.  Caller-supplied
field values (tile id, palette id, priority, shape, size) are C++ `int`s that
the contract requires non-negative, embedded as `Nat`; screen coordinates may
be negative and are embedded as `Int`, with the 9-bit/8-bit truncating store
expressed through `Int.emod` (the two's-complement `& mask` of the hardware
write).
-/

namespace btn.hw.sprites

/-- One hardware OAM attribute entry (`handle` in `btn_hw_sprites.h`, alias of
tonc's `OBJ_ATTR`): three meaningful 16-bit attribute words plus one padding
word, 8 bytes in total.  Modelled from the spec: the entry is "exactly 3
meaningful 16-bit words (a 4th is hardware padding/unused by this layer)". -/
structure handle where
  attr0 : Nat
  attr1 : Nat
  attr2 : Nat
  fill : Nat
deriving DecidableEq

/-- Pixel dimensions of a sprite (`btn::size` from `btn_size.h`): a
width/height pair. -/
structure size where
  width : Nat
  height : Nat
deriving DecidableEq

/-- Modelled from the spec: read a `k`-bit field starting at bit `lo` of a
word — the mask-and-shift extraction used by the tonc bitfield macros. -/
def getField (lo k w : Nat) : Nat := w / 2 ^ lo % 2 ^ k

/-- Modelled from the spec: tonc's `BFN_SET` — a read-modify-write of the
`k`-bit field at bit `lo`: bits below and above the field are preserved and
the new value is truncated ("values are truncated/masked by construction of
the bitfield write, not validated").  For words this equals
`(w &&& ~mask) ||| ((v <<< lo) &&& mask)` with `mask = ((1 <<< k) - 1) <<< lo`. -/
def setField (lo k v w : Nat) : Nat :=
  w % 2 ^ lo + v % 2 ^ k * 2 ^ lo + w / 2 ^ (lo + k) * 2 ^ (lo + k)

/-- Modelled from the spec: tonc's `ATTR0_BUILD` restricted to the arguments
`btn_hw_sprites.cpp` uses (mosaic, blend and window are passed as 0).  Word 0
layout from the spec's table: bits 0–7 Y, bits 8–9 affine-double-size / mode
selector, bit 10 color-depth flag, bits 12–13 shape code. -/
def ATTR0_BUILD (y shape bpp8 mode : Nat) : Nat :=
  y % 256 + mode % 4 * 256 + bpp8 % 2 * 1024 + shape % 4 * 4096

/-- Modelled from the spec: tonc's `ATTR1_BUILDR` restricted to the arguments
used here (both flip flags passed as 0).  Word 1 layout from the spec's
table: bits 0–8 X position, bits 9–13 affine bits, bits 14–15 size code. -/
def ATTR1_BUILDR (x sz : Nat) : Nat :=
  x % 512 + sz % 4 * 16384

/-- Modelled from the spec: tonc's `ATTR2_BUILD`.  Word 2 layout from the
spec's table: bits 0–9 tile base index, bits 10–11 background priority, bits
12–15 palette bank index. -/
def ATTR2_BUILD (id pb prio : Nat) : Nat :=
  id % 1024 + prio % 4 * 1024 + pb % 16 * 4096

/-- Modelled from the spec: the hardware-defined 12-entry shape-by-size base
dimension table read by tonc's `obj_get_size` (shape 0 = square, 1 =
horizontal-wide, 2 = vertical-tall; 4 size codes per shape).  The spec pins
square/smallest to (8,8) and calls the rest "the documented base
width/height" of the hardware; shape code 3 is undefined by contract and
given a dummy value here. -/
def sizeTable (shape sz : Nat) : size :=
  match shape, sz with
  | 0, 0 => ⟨8, 8⟩
  | 0, 1 => ⟨16, 16⟩
  | 0, 2 => ⟨32, 32⟩
  | 0, 3 => ⟨64, 64⟩
  | 1, 0 => ⟨16, 8⟩
  | 1, 1 => ⟨32, 8⟩
  | 1, 2 => ⟨32, 16⟩
  | 1, 3 => ⟨64, 32⟩
  | 2, 0 => ⟨8, 16⟩
  | 2, 1 => ⟨8, 32⟩
  | 2, 2 => ⟨16, 32⟩
  | 2, 3 => ⟨32, 64⟩
  | _, _ => ⟨0, 0⟩

/-- Modelled from the spec: tonc's `obj_get_size` — looks up the base box of
the entry's shape code (word 0 bits 12–13) and size code (word 1 bits 14–15)
in the fixed table. -/
def obj_get_size (s : handle) : size :=
  sizeTable (getField 12 2 s.attr0) (getField 14 2 s.attr1)

/-- `dimensions` from `btn_hw_sprites.cpp`: the base box of the entry's
shape/size codes, doubled in both axes when the affine-double-size bit
(`ATTR0_AFF_DBL_BIT`, bit 9 of word 0 — the upper bit of the spec table's
"affine-double-size / mode selector" bits 8–9) is set in `attr0`. -/
def dimensions (s : handle) : size :=
  let result := obj_get_size s
  if getField 9 1 s.attr0 = 1 then ⟨2 * result.width, 2 * result.height⟩
  else result

/-- Modelled from the spec: tonc's `obj_set_pos` — stores the corner Y into
word 0's Y bits (0–7, the spec table's "Y-related" field) and the corner X
into word 1's X-position bits (0–8, signed 9-bit), preserving every other bit
of both words.  The spec's prose sentence placing both coordinates "into
word1's position bits" cannot be realised in the spec's own bit-exact layout
table (word 1 holds only the 9-bit X position next to the affine bits and the
size code), so the table's placement is followed.  The truncating store of a
possibly negative coordinate is `Int.emod`, matching the hardware's
two's-complement masking. -/
def obj_set_pos (x y : Int) (s : handle) : handle :=
  { s with
    attr0 := setField 0 8 (Int.toNat (Int.emod y 256)) s.attr0
    attr1 := setField 0 9 (Int.toNat (Int.emod x 512)) s.attr1 }

/-- `set_position` from `btn_hw_sprites.cpp`: queries `dimensions` on the
current entry state and stores the corner `(x - width / 2, y - height / 2)`
(the caller's `(x, y)` is the sprite's center; integer division truncates). -/
def set_position (x y : Int) (s : handle) : handle :=
  let dims := dimensions s
  obj_set_pos (x - (dims.width / 2 : Nat)) (y - (dims.height / 2 : Nat)) s

/-- `setup` from `btn_hw_sprites.cpp`: builds all three attribute words from
scratch (`obj_set_attr` overwrites `attr0`/`attr1`/`attr2`; Y, mode, mosaic,
blend, window, X and both flips are passed as 0, so the affine-double-size
bit is left clear) and then delegates to `set_position`. -/
def setup (shape sz tile_id palette_id : Nat) (eight_bits_per_pixel : Bool)
    (x y : Int) (bg_priority : Nat) (s : handle) : handle :=
  set_position x y
    { s with
      attr0 := ATTR0_BUILD 0 shape (if eight_bits_per_pixel then 1 else 0) 0
      attr1 := ATTR1_BUILDR 0 sz
      attr2 := ATTR2_BUILD tile_id palette_id bg_priority }

/-- `set_tile` from `btn_hw_sprites.cpp`: `BFN_SET(attr2, tile_id, ATTR2_ID)`
— writes the tile base index field, word 2 bits 0–9. -/
def set_tile (tile_id : Nat) (s : handle) : handle :=
  { s with attr2 := setField 0 10 tile_id s.attr2 }

/-- `set_palette` from `btn_hw_sprites.cpp`:
`BFN_SET(attr2, palette_id, ATTR2_PALBANK)` — writes the palette bank field,
word 2 bits 12–15. -/
def set_palette (palette_id : Nat) (s : handle) : handle :=
  { s with attr2 := setField 12 4 palette_id s.attr2 }

/-- `set_bg_priority` from `btn_hw_sprites.cpp`:
`BFN_SET(attr2, bg_priority, ATTR2_PRIO)` — writes the background priority
field, word 2 bits 10–11. -/
def set_bg_priority (bg_priority : Nat) (s : handle) : handle :=
  { s with attr2 := setField 10 2 bg_priority s.attr2 }

/-- Modelled from the spec: tonc's `obj_hide` — writes the hardware's
dedicated "object disabled" pattern (value 2, binary 10) into the mode
selector, word 0 bits 8–9 per the spec's bit-exact table, leaving every other
bit of the entry unchanged.  The spec's prose locating the disabled pattern
"in word1" contradicts its own layout table (which places the
affine-double-size / mode selector at word 0 bits 8–9) and the source's read
of the shared double-size bit from `attr0`; the table's placement is
followed. -/
def obj_hide (s : handle) : handle :=
  { s with attr0 := setField 8 2 2 s.attr0 }

/-- `hide` from `btn_hw_sprites.cpp`: delegates to `obj_hide`. -/
def hide (s : handle) : handle := obj_hide s

/-- The entry is in the hardware's dedicated object-disabled state: the mode
selector (word 0 bits 8–9) holds the disabled pattern 2. -/
def isHidden (s : handle) : Prop := getField 8 2 s.attr0 = 2

instance (s : handle) : Decidable (isHidden s) :=
  inferInstanceAs (Decidable (getField 8 2 s.attr0 = 2))

/-- Modelled from the spec: `available_sprites()` from `btn_hw_sprites.h`,
"a fixed compile-time constant for the maximum sprite slot count" — 128
hardware OAM slots. -/
def available_sprites : Nat := 128

/-- The attribute words of an entry freshly driven to the hidden state: mode
selector = disabled, all other bits zero. -/
def hiddenEntry : handle := ⟨512, 0, 0, 0⟩

/-- Modelled from the spec: tonc's `oam_init` — drives each of the first
`count` entries of the region to a defined hidden state, regardless of prior
contents.  The affine-matrix data interleaved in the padding words is out of
scope for this layer; padding is initialised to zero. -/
def oam_init (oam : Nat → handle) (count : Nat) : Nat → handle :=
  fun i => if i < count then hiddenEntry else oam i

/-- `init` from `btn_hw_sprites.cpp`:
`oam_init(vram(), available_sprites())` over the hardware OAM region. -/
def init (oam : Nat → handle) : Nat → handle :=
  oam_init oam available_sprites

/-- `commit` from `btn_hw_sprites.cpp`: `memory::copy(sprites_ref, count,
*vram())`.  Modelled from the spec: the consumed bulk memory-copy primitive
copies `count` contiguous entries from the start of the shadow table to the
start of the hardware region; the region beyond them is untouched. -/
def commit (table : Nat → handle) (count : Nat) (oam : Nat → handle) :
    Nat → handle :=
  fun i => if i < count then table i else oam i

/-- The spec's shape-by-size table as written (shape code, size code, base
width, base height), one row per valid pair — the reference against which the
encoder and the geometry resolver are compared. -/
def specTable : List (Nat × Nat × Nat × Nat) :=
  [(0, 0, 8, 8), (0, 1, 16, 16), (0, 2, 32, 32), (0, 3, 64, 64),
   (1, 0, 16, 8), (1, 1, 32, 8), (1, 2, 32, 16), (1, 3, 64, 32),
   (2, 0, 8, 16), (2, 1, 8, 32), (2, 2, 16, 32), (2, 3, 32, 64)]

lemma emod_toNat_lt (z : Int) (n : Nat) (hn : 0 < n) :
    (Int.emod z n).toNat < n := by
  have h1 : 0 ≤ Int.emod z n := Int.emod_nonneg z (by exact_mod_cast hn.ne')
  have h2 : Int.emod z n < (n : Int) := Int.emod_lt_of_pos z (by exact_mod_cast hn)
  omega

lemma setField_0_8_eq (v w : Nat) (hv : v < 256) :
    setField 0 8 v w = v + w / 256 * 256 := by
  simp only [setField]; norm_num; omega

lemma setField_0_9_eq (v w : Nat) (hv : v < 512) :
    setField 0 9 v w = v + w / 512 * 512 := by
  simp only [setField]; norm_num; omega

lemma getField_0_8_of_low (v w : Nat) (hv : v < 256) :
    getField 0 8 (v + w / 256 * 256) = v := by
  simp only [getField]; norm_num; omega

lemma getField_0_9_of_low (v w : Nat) (hv : v < 512) :
    getField 0 9 (v + w / 512 * 512) = v := by
  simp only [getField]; norm_num; omega

lemma div_256_of_low (v w : Nat) (hv : v < 256) :
    (v + w / 256 * 256) / 256 = w / 256 := by omega

lemma div_512_of_low (v w : Nat) (hv : v < 512) :
    (v + w / 512 * 512) / 512 = w / 512 := by omega

lemma set_position_attr0 (x y : Int) (e : handle) :
    (set_position x y e).attr0
      = (Int.emod (y - ((dimensions e).height / 2 : Nat)) 256).toNat
          + e.attr0 / 256 * 256 :=
  setField_0_8_eq _ _
    (emod_toNat_lt (y - ((dimensions e).height / 2 : Nat)) 256 (by norm_num))

lemma set_position_attr1 (x y : Int) (e : handle) :
    (set_position x y e).attr1
      = (Int.emod (x - ((dimensions e).width / 2 : Nat)) 512).toNat
          + e.attr1 / 512 * 512 :=
  setField_0_9_eq _ _
    (emod_toNat_lt (x - ((dimensions e).width / 2 : Nat)) 512 (by norm_num))

lemma set_position_attr2 (x y : Int) (e : handle) :
    (set_position x y e).attr2 = e.attr2 := rfl

lemma set_position_fill (x y : Int) (e : handle) :
    (set_position x y e).fill = e.fill := rfl

/-- C1: for every attribute entry whose shape and size codes form one of the
12 valid shape/size pairs, `dimensions` returns the base width/height given
by the fixed 12-entry shape-by-size lookup table, and returns both axes
doubled exactly when the entry's affine-double-size bit is set. -/
theorem dimensions_matches_spec_table :
    ∀ r ∈ specTable, ∀ e : handle,
      getField 12 2 e.attr0 = r.1 → getField 14 2 e.attr1 = r.2.1 →
      (getField 9 1 e.attr0 = 0 → dimensions e = ⟨r.2.2.1, r.2.2.2⟩) ∧
      (getField 9 1 e.attr0 = 1 → dimensions e = ⟨2 * r.2.2.1, 2 * r.2.2.2⟩) := by
  intro r hr e h1 h2
  fin_cases hr <;>
    exact ⟨fun h3 => by simp [dimensions, obj_get_size, h1, h2, h3, sizeTable],
           fun h3 => by simp [dimensions, obj_get_size, h1, h2, h3, sizeTable]⟩

/-- Witness for C1 at shape = square, size = smallest: a fresh entry yields
(8,8), and (16,16) once the double-size bit (bit 9 of word 0) is set. -/
theorem dimensions_matches_spec_table_witness :
    dimensions ⟨0, 0, 0, 0⟩ = ⟨8, 8⟩ ∧ dimensions ⟨512, 0, 0, 0⟩ = ⟨16, 16⟩ :=
  ⟨(dimensions_matches_spec_table (0, 0, 8, 8) (by decide) ⟨0, 0, 0, 0⟩
      (by decide) (by decide)).1 (by decide),
   (dimensions_matches_spec_table (0, 0, 8, 8) (by decide) ⟨512, 0, 0, 0⟩
      (by decide) (by decide)).2 (by decide)⟩

/-- C2 counterexample: `set_position` does not write the corner Y coordinate
into word 1 — on a fresh (8,8) square entry, word 1 after the call is
independent of the caller's `y`, while word 0 (which the claim leaves
untouched) is mutated to hold the corner Y. -/
theorem set_position_claim_counterexample :
    (set_position 100 80 ⟨0, 0, 0, 0⟩).attr1
        = (set_position 100 0 ⟨0, 0, 0, 0⟩).attr1 ∧
    (set_position 100 80 ⟨0, 0, 0, 0⟩).attr0 ≠ (0 : Nat) := by decide

/-- C2 (amended): `set_position` stores corner X = `x - width / 2` in word
1's X-position bits (0–8) and corner Y = `y - height / 2` in word 0's Y bits
(0–7), dimensions taken from the current entry state and division
truncating; every other bit of words 0 and 1, and all of word 2, are
preserved.  With dimensions (16,16), center (100,80) stores corner (92,72);
with dimensions (8,8) it stores (96,76). -/
theorem set_position_stores_center_minus_half :
    (∀ (x y : Int) (e : handle),
      getField 0 9 (set_position x y e).attr1
          = (Int.emod (x - ((dimensions e).width / 2 : Nat)) 512).toNat ∧
      getField 0 8 (set_position x y e).attr0
          = (Int.emod (y - ((dimensions e).height / 2 : Nat)) 256).toNat ∧
      (set_position x y e).attr1 / 512 = e.attr1 / 512 ∧
      (set_position x y e).attr0 / 256 = e.attr0 / 256 ∧
      (set_position x y e).attr2 = e.attr2 ∧
      (set_position x y e).fill = e.fill) ∧
    getField 0 9 (set_position 100 80 ⟨0, 16384, 0, 0⟩).attr1 = 92 ∧
    getField 0 8 (set_position 100 80 ⟨0, 16384, 0, 0⟩).attr0 = 72 ∧
    getField 0 9 (set_position 100 80 ⟨0, 0, 0, 0⟩).attr1 = 96 ∧
    getField 0 8 (set_position 100 80 ⟨0, 0, 0, 0⟩).attr0 = 76 := by
  refine ⟨fun x y e => ?_, by decide, by decide, by decide, by decide⟩
  have b0 := emod_toNat_lt (y - ((dimensions e).height / 2 : Nat)) 256 (by norm_num)
  have b1 := emod_toNat_lt (x - ((dimensions e).width / 2 : Nat)) 512 (by norm_num)
  refine ⟨?_, ?_, ?_, ?_, rfl, rfl⟩
  · rw [set_position_attr1]; exact getField_0_9_of_low _ _ b1
  · rw [set_position_attr0]; exact getField_0_8_of_low _ _ b0
  · rw [set_position_attr1]; exact div_512_of_low _ _ b1
  · rw [set_position_attr0]; exact div_256_of_low _ _ b0

lemma set_position_attr0_bound (x y : Int) (e : handle) :
    ∃ v, v < 256 ∧ (set_position x y e).attr0 = v + e.attr0 / 256 * 256 :=
  ⟨_, emod_toNat_lt _ 256 (by norm_num), set_position_attr0 x y e⟩

lemma set_position_attr1_bound (x y : Int) (e : handle) :
    ∃ v, v < 512 ∧ (set_position x y e).attr1 = v + e.attr1 / 512 * 512 :=
  ⟨_, emod_toNat_lt _ 512 (by norm_num), set_position_attr1 x y e⟩

lemma setup_eq_set_position (shape sz tile pal prio : Nat) (b : Bool)
    (x y : Int) (e : handle) :
    setup shape sz tile pal b x y prio e
      = set_position x y
          ⟨ATTR0_BUILD 0 shape (if b then 1 else 0) 0, ATTR1_BUILDR 0 sz,
           ATTR2_BUILD tile pal prio, e.fill⟩ := rfl

lemma setup_attr0_bound (shape sz tile pal prio : Nat) (b : Bool)
    (x y : Int) (e : handle) :
    ∃ v, v < 256 ∧ (setup shape sz tile pal b x y prio e).attr0
      = v + ATTR0_BUILD 0 shape (if b then 1 else 0) 0 := by
  obtain ⟨v, hv, hEq⟩ := set_position_attr0_bound x y
    ⟨ATTR0_BUILD 0 shape (if b then 1 else 0) 0, ATTR1_BUILDR 0 sz,
     ATTR2_BUILD tile pal prio, e.fill⟩
  refine ⟨v, hv, ?_⟩
  rw [setup_eq_set_position, hEq]
  simp only [ATTR0_BUILD]
  cases b <;> norm_num <;> omega

lemma setup_attr1_bound (shape sz tile pal prio : Nat) (b : Bool)
    (x y : Int) (e : handle) :
    ∃ v, v < 512 ∧ (setup shape sz tile pal b x y prio e).attr1
      = v + ATTR1_BUILDR 0 sz := by
  obtain ⟨v, hv, hEq⟩ := set_position_attr1_bound x y
    ⟨ATTR0_BUILD 0 shape (if b then 1 else 0) 0, ATTR1_BUILDR 0 sz,
     ATTR2_BUILD tile pal prio, e.fill⟩
  refine ⟨v, hv, ?_⟩
  rw [setup_eq_set_position, hEq]
  simp only [ATTR1_BUILDR]
  norm_num
  omega

lemma setup_attr2_eq (shape sz tile pal prio : Nat) (b : Bool)
    (x y : Int) (e : handle) :
    (setup shape sz tile pal b x y prio e).attr2 = ATTR2_BUILD tile pal prio :=
  rfl

lemma getField_9_1_setup (shape sz tile pal prio : Nat) (b : Bool)
    (x y : Int) (e : handle) :
    getField 9 1 (setup shape sz tile pal b x y prio e).attr0 = 0 := by
  obtain ⟨v, hv, hEq⟩ := setup_attr0_bound shape sz tile pal prio b x y e
  rw [hEq]; simp only [getField, ATTR0_BUILD]
  cases b <;> norm_num <;> omega

lemma getField_8_2_setup (shape sz tile pal prio : Nat) (b : Bool)
    (x y : Int) (e : handle) :
    getField 8 2 (setup shape sz tile pal b x y prio e).attr0 = 0 := by
  obtain ⟨v, hv, hEq⟩ := setup_attr0_bound shape sz tile pal prio b x y e
  rw [hEq]; simp only [getField, ATTR0_BUILD]
  cases b <;> norm_num <;> omega

lemma getField_12_2_setup (shape sz tile pal prio : Nat) (b : Bool)
    (x y : Int) (e : handle) :
    getField 12 2 (setup shape sz tile pal b x y prio e).attr0 = shape % 4 := by
  obtain ⟨v, hv, hEq⟩ := setup_attr0_bound shape sz tile pal prio b x y e
  rw [hEq]; simp only [getField, ATTR0_BUILD]
  cases b <;> norm_num <;> omega

lemma getField_14_2_setup (shape sz tile pal prio : Nat) (b : Bool)
    (x y : Int) (e : handle) :
    getField 14 2 (setup shape sz tile pal b x y prio e).attr1 = sz % 4 := by
  obtain ⟨v, hv, hEq⟩ := setup_attr1_bound shape sz tile pal prio b x y e
  rw [hEq]; simp only [getField, ATTR1_BUILDR]
  norm_num
  omega

lemma dimensions_setup (shape sz tile pal prio : Nat) (b : Bool)
    (x y : Int) (e : handle) :
    dimensions (setup shape sz tile pal b x y prio e)
      = sizeTable (shape % 4) (sz % 4) := by
  have h9 := getField_9_1_setup shape sz tile pal prio b x y e
  have h12 := getField_12_2_setup shape sz tile pal prio b x y e
  have h14 := getField_14_2_setup shape sz tile pal prio b x y e
  simp [dimensions, obj_get_size, h9, h12, h14]

/-- C3: the encoder places each field at the spec table's bit positions —
`setup` produces word 2 with the tile index at bits 0–9, the priority at bits
10–11 and the palette bank at bits 12–15, and word 0 with the shape code at
bits 12–13 and the color-depth flag at bit 10; each of `set_tile`,
`set_bg_priority` and `set_palette` rewrites exactly its field's bit range of
word 2 and keeps the bits on either side. -/
theorem encoder_bit_layout :
    (∀ (shape sz tile pal prio : Nat) (b : Bool) (x y : Int) (e : handle),
      (setup shape sz tile pal b x y prio e).attr2
          = tile % 1024 + prio % 4 * 1024 + pal % 16 * 4096 ∧
      (setup shape sz tile pal b x y prio e).attr0 / 4096 % 4 = shape % 4 ∧
      (setup shape sz tile pal b x y prio e).attr0 / 1024 % 4
          = (if b then 1 else 0)) ∧
    (∀ (v : Nat) (e : handle),
      (set_tile v e).attr2 = v % 1024 + e.attr2 / 1024 * 1024 ∧
      (set_bg_priority v e).attr2
          = e.attr2 % 1024 + v % 4 * 1024 + e.attr2 / 4096 * 4096 ∧
      (set_palette v e).attr2
          = e.attr2 % 4096 + v % 16 * 4096 + e.attr2 / 65536 * 65536) := by
  constructor
  · intro shape sz tile pal prio b x y e
    obtain ⟨v, hv, hEq⟩ := setup_attr0_bound shape sz tile pal prio b x y e
    refine ⟨rfl, ?_, ?_⟩ <;>
      · rw [hEq]; simp only [ATTR0_BUILD]
        cases b <;> norm_num <;> omega
  · intro v e
    refine ⟨?_, ?_, ?_⟩ <;>
      · simp only [set_tile, set_bg_priority, set_palette, setField]
        norm_num
        try omega

/-- C4: each of `set_tile`, `set_palette` and `set_bg_priority` changes only
its own bitfield of word 2: word 0, word 1, the padding word, the other two
word-2 fields and the bits of word 2 above the attribute fields all re-read
exactly their pre-call values. -/
theorem setters_change_only_their_field :
    ∀ (v : Nat) (e : handle),
      ((set_tile v e).attr0 = e.attr0 ∧ (set_tile v e).attr1 = e.attr1 ∧
        (set_tile v e).fill = e.fill ∧
        getField 10 2 (set_tile v e).attr2 = getField 10 2 e.attr2 ∧
        getField 12 4 (set_tile v e).attr2 = getField 12 4 e.attr2 ∧
        (set_tile v e).attr2 / 65536 = e.attr2 / 65536) ∧
      ((set_palette v e).attr0 = e.attr0 ∧ (set_palette v e).attr1 = e.attr1 ∧
        (set_palette v e).fill = e.fill ∧
        getField 0 10 (set_palette v e).attr2 = getField 0 10 e.attr2 ∧
        getField 10 2 (set_palette v e).attr2 = getField 10 2 e.attr2 ∧
        (set_palette v e).attr2 / 65536 = e.attr2 / 65536) ∧
      ((set_bg_priority v e).attr0 = e.attr0 ∧
        (set_bg_priority v e).attr1 = e.attr1 ∧
        (set_bg_priority v e).fill = e.fill ∧
        getField 0 10 (set_bg_priority v e).attr2 = getField 0 10 e.attr2 ∧
        getField 12 4 (set_bg_priority v e).attr2 = getField 12 4 e.attr2 ∧
        (set_bg_priority v e).attr2 / 65536 = e.attr2 / 65536) := by
  intro v e
  refine ⟨⟨rfl, rfl, rfl, ?_, ?_, ?_⟩, ⟨rfl, rfl, rfl, ?_, ?_, ?_⟩,
          ⟨rfl, rfl, rfl, ?_, ?_, ?_⟩⟩ <;>
    · simp only [set_tile, set_palette, set_bg_priority, getField, setField]
      norm_num
      omega

/-- C5: an entry freshly produced by `setup` with any of the 12 valid
shape/size pairs (and arbitrary other arguments) reports, via `dimensions`,
exactly the undoubled base width/height of that pair — `setup` leaves the
affine-double-size bit clear, so no doubling occurs. -/
theorem setup_dimensions_roundtrip :
    ∀ r ∈ specTable, ∀ (tile pal prio : Nat) (b : Bool) (x y : Int) (e : handle),
      dimensions (setup r.1 r.2.1 tile pal b x y prio e) = ⟨r.2.2.1, r.2.2.2⟩ := by
  intro r hr tile pal prio b x y e
  fin_cases hr <;> simp [dimensions_setup, sizeTable]

/-- Witness for C5 at shape = square, size = smallest with concrete other
arguments: the fresh entry measures (8,8). -/
theorem setup_dimensions_roundtrip_witness :
    dimensions (setup 0 0 5 3 true 100 80 2 ⟨0, 0, 0, 0⟩) = ⟨8, 8⟩ :=
  setup_dimensions_roundtrip (0, 0, 8, 8) (by decide) 5 3 2 true 100 80 ⟨0, 0, 0, 0⟩

/-- C6 counterexample: `hide` writes its object-disabled pattern into word 0,
not word 1 — on an entry with tile/palette data in word 2, hiding leaves word
1 bit-for-bit unchanged while word 0 changes — and a later `set_position`
call does not restore visibility: the entry is still in the disabled state
after it. -/
theorem hide_claim_counterexample :
    (hide ⟨0, 0, 4660, 0⟩).attr1 = (0 : Nat) ∧
    (hide ⟨0, 0, 4660, 0⟩).attr0 = (512 : Nat) ∧
    isHidden (set_position 50 50 (hide ⟨0, 0, 4660, 0⟩)) := by decide

/-- C6 (amended): `hide` sets the hardware's dedicated object-disabled
pattern in word 0's mode-selector bits (8–9) without reading or altering the
tile, palette and background-priority fields — word 1, word 2 and every other
bit of word 0 are unchanged — so a later `setup` call (which rebuilds the
words, clearing the disabled mode) restores a visible sprite; `set_position`
repositions the entry but leaves the disabled state in place. -/
theorem hide_disables_in_word0_preserving_rest :
    ∀ (e : handle),
      isHidden (hide e) ∧
      (hide e).attr1 = e.attr1 ∧ (hide e).attr2 = e.attr2 ∧
      (hide e).fill = e.fill ∧
      (hide e).attr0 % 256 = e.attr0 % 256 ∧
      (hide e).attr0 / 1024 = e.attr0 / 1024 ∧
      (∀ (shape sz tile pal prio : Nat) (b : Bool) (x y : Int),
        getField 8 2 (setup shape sz tile pal b x y prio (hide e)).attr0 = 0) ∧
      (∀ (x y : Int), isHidden (set_position x y (hide e))) := by
  intro e
  refine ⟨?_, rfl, rfl, rfl, ?_, ?_,
          fun shape sz tile pal prio b x y =>
            getField_8_2_setup shape sz tile pal prio b x y (hide e),
          fun x y => ?_⟩
  · simp only [isHidden, hide, obj_hide, getField, setField]; norm_num; omega
  · simp only [hide, obj_hide, setField]; norm_num; omega
  · simp only [hide, obj_hide, setField]; norm_num; omega
  · have hh : getField 8 2 (hide e).attr0 = 2 := by
      simp only [hide, obj_hide, getField, setField]; norm_num; omega
    obtain ⟨v, hv, hEq⟩ := set_position_attr0_bound x y (hide e)
    simp only [isHidden, getField] at hh ⊢
    rw [hEq]
    norm_num at hh ⊢
    omega

/-- C7: `commit` copies exactly the first `count` entries of the shadow table
to the start of the hardware region, and every hardware entry at index at
least `count` is unchanged by the call — entries beyond `count` retain
whatever was last committed. -/
theorem commit_copies_first_count_entries :
    ∀ (table oam : Nat → handle) (count i : Nat),
      (i < count → commit table count oam i = table i) ∧
      (count ≤ i → commit table count oam i = oam i) := by
  intro table oam count i
  constructor <;> intro h <;> simp only [commit]
  · rw [if_pos h]
  · rw [if_neg (by omega)]

/-- Witness for C7 with a two-element shadow table committed with count 1:
entry 0 of the hardware region receives the table's entry 0, entry 5 keeps
its previous contents. -/
theorem commit_copies_first_count_entries_witness :
    commit (fun _ => hiddenEntry) 1 (fun _ => ⟨1, 2, 3, 4⟩) 0 = hiddenEntry ∧
    commit (fun _ => hiddenEntry) 1 (fun _ => ⟨1, 2, 3, 4⟩) 5 = ⟨1, 2, 3, 4⟩ :=
  ⟨(commit_copies_first_count_entries (fun _ => hiddenEntry)
      (fun _ => ⟨1, 2, 3, 4⟩) 1 0).1 (by decide),
   (commit_copies_first_count_entries (fun _ => hiddenEntry)
      (fun _ => ⟨1, 2, 3, 4⟩) 1 5).2 (by decide)⟩

/-- C8: after `init`, every one of the `available_sprites` entries of the
hardware OAM region is in the object-disabled (hidden) state, whatever the
region held before. -/
theorem init_hides_every_slot :
    ∀ (oam : Nat → handle) (i : Nat),
      i < available_sprites → isHidden (init oam i) := by
  intro oam i h
  simp only [init, oam_init, if_pos h]
  decide

/-- Witness for C8: slot 0 of a region previously holding all-ones words is
hidden after `init`. -/
theorem init_hides_every_slot_witness :
    isHidden (init (fun _ => ⟨65535, 65535, 65535, 65535⟩) 0) :=
  init_hides_every_slot (fun _ => ⟨65535, 65535, 65535, 65535⟩) 0 (by decide)

/-- C9: out-of-range field values passed to `set_tile`, `set_palette` and
`set_bg_priority` are silently truncated by the masked bitfield write: the
stored field equals the input modulo 2 to the field's bit width (1024, 16 and
4 respectively); the operations are total and signal no error. -/
theorem setters_truncate_by_masking :
    ∀ (v : Nat) (e : handle),
      getField 0 10 (set_tile v e).attr2 = v % 1024 ∧
      getField 12 4 (set_palette v e).attr2 = v % 16 ∧
      getField 10 2 (set_bg_priority v e).attr2 = v % 4 := by
  intro v e
  refine ⟨?_, ?_, ?_⟩ <;>
    · simp only [set_tile, set_palette, set_bg_priority, getField, setField]
      norm_num
      try omega

/-- C10: `hide` is idempotent — applying it twice leaves the entry
bit-for-bit identical to applying it once. -/
theorem hide_idempotent :
    ∀ (e : handle), hide (hide e) = hide e := by
  intro e
  simp only [hide, obj_hide]
  congr 1
  simp only [setField]
  norm_num
  omega

end btn.hw.sprites
